import Mathlib

/-!
Shallow embedding of the inventory reservation and checkout core of the
shop backend (Go + Postgres).  The durable store is modelled as an explicit
`DB` state; each store operation is a pure function that either returns the
committed successor state (`Except.ok`) or an error (`Except.error`), in
which case the transaction rolled back and the caller keeps the old state.
Prices (SQL `NUMERIC(10,2)`, read into Go `float64`) are modelled as
fixed-point integers (a count of cents), which `NUMERIC(10,2)` values are;
product quantities are integers, so every total in the core is again a
count of cents and the arithmetic is exact.
-/

namespace Shop

/-- Row of the `products` table: id, name, optional description, price, stock. -/
structure ProductRow where
  id : Int
  name : String
  description : Option String
  price : Int
  stock : Int
deriving Repr, DecidableEq

/-- Row of the `cart_items` table; `cartId` is the owner's user id
(the `carts` table is keyed by `user_id`). -/
structure CartItemRow where
  cartId : String
  productId : Int
  quantity : Int
deriving Repr, DecidableEq

/-- Row of the `orders` table (`created_at` is server time, not modelled). -/
structure OrderRow where
  id : Int
  userId : String
  total : Int
deriving Repr, DecidableEq

/-- Item as returned by `Checkout` (Go `OrderItemRow`): product, quantity and
the price snapshot read inside the checkout transaction. -/
structure OrderItemRow where
  productId : Int
  quantity : Int
  price : Int
deriving Repr, DecidableEq

/-- Row of the `order_items` table: an `OrderItemRow` tagged with its order id. -/
structure OrderItemTableRow where
  orderId : Int
  productId : Int
  quantity : Int
  price : Int
deriving Repr, DecidableEq

/-- The durable state: the five tables plus the serial id counters. -/
structure DB where
  products : List ProductRow
  carts : List String
  cartItems : List CartItemRow
  orders : List OrderRow
  orderItems : List OrderItemTableRow
  nextOrderId : Int
  nextProductId : Int
deriving Repr, DecidableEq

/-- Errors surfaced by the store layer.  `invalidArgument` covers the
validation errors (`"quantity must be > 0"`, `"stock cannot be negative"`,
`"user_id required"`), `errNoRows` is `sql.ErrNoRows`, `emptyCart` is the
`"cart empty"` error, `insufficientStock` is `ErrInsufficientStock`. -/
inductive StoreError where
  | invalidArgument
  | insufficientStock
  | errNoRows
  | emptyCart
deriving Repr, DecidableEq

/-- `SELECT ... FROM products WHERE id = pid` (first matching row). -/
def findProduct (db : DB) (pid : Int) : Option ProductRow :=
  db.products.find? (fun p => p.id == pid)

/-- Key match for a cart-item row: `cart_id = u AND product_id = pid`. -/
def sameKey (u : String) (pid : Int) (ci : CartItemRow) : Bool :=
  ci.cartId == u && ci.productId == pid

/-- `UPDATE products SET stock = f stock WHERE id = pid` on the row list. -/
def updStockRows (pid : Int) (f : Int → Int) (l : List ProductRow) : List ProductRow :=
  l.map (fun p => if p.id == pid then { p with stock := f p.stock } else p)

/-- `UPDATE products SET stock = f stock WHERE id = pid` on the state. -/
def updStock (db : DB) (pid : Int) (f : Int → Int) : DB :=
  { db with products := updStockRows pid f db.products }

/-- `INSERT INTO carts (user_id) VALUES (u) ON CONFLICT DO NOTHING`. -/
def ensureCart (db : DB) (u : String) : DB :=
  if db.carts.contains u then db else { db with carts := db.carts ++ [u] }

/-- Update applied by the upsert's conflict branch:
`quantity = cart_items.quantity + EXCLUDED.quantity` on the matching row. -/
def bumpQty (u : String) (pid : Int) (qty : Int) (ci : CartItemRow) : CartItemRow :=
  if sameKey u pid ci then { ci with quantity := ci.quantity + qty } else ci

/-- `INSERT INTO cart_items ... ON CONFLICT (cart_id, product_id) DO UPDATE
SET quantity = cart_items.quantity + EXCLUDED.quantity`. -/
def upsertItems (u : String) (pid : Int) (qty : Int) (l : List CartItemRow) : List CartItemRow :=
  if l.any (sameKey u pid) then
    l.map (bumpQty u pid qty)
  else
    l ++ [{ cartId := u, productId := pid, quantity := qty }]

/-- `PostgresStore.AddToCart`: validate the quantity, ensure the cart row,
read the product stock under a row lock, check stock, upsert the cart item
and decrement the stock — all in one transaction (an error means the whole
transaction rolled back, the cart-record insert included). -/
def AddToCart (db : DB) (u : String) (pid : Int) (qty : Int) : Except StoreError DB :=
  if qty ≤ 0 then .error .invalidArgument
  else
    let db1 := ensureCart db u
    match findProduct db1 pid with
    | none => .error .errNoRows
    | some p =>
      if p.stock < qty then .error .insufficientStock
      else .ok (updStock { db1 with cartItems := upsertItems u pid qty db1.cartItems } pid
                  (fun s => s - qty))

/-- `Service.AddToCart`: the service layer validates `user_id` and the
quantity before handing off to the store. -/
def ServiceAddToCart (db : DB) (u : String) (pid : Int) (qty : Int) : Except StoreError DB :=
  if u == "" then .error .invalidArgument
  else if qty ≤ 0 then .error .invalidArgument
  else AddToCart db u pid qty

/-- `PostgresStore.RemoveFromCart`: read the cart-item quantity
(`sql.ErrNoRows` if absent), delete the whole row, and add the quantity
back onto the product's stock, in one transaction. -/
def RemoveFromCart (db : DB) (u : String) (pid : Int) : Except StoreError DB :=
  match db.cartItems.find? (sameKey u pid) with
  | none => .error .errNoRows
  | some ci =>
    .ok (updStock { db with cartItems := db.cartItems.filter (fun c => !(sameKey u pid c)) }
           pid (fun s => s + ci.quantity))

/-- The join `SELECT ci.product_id, ci.quantity, p.price FROM cart_items ci
JOIN products p ON p.id = ci.product_id WHERE ci.cart_id = u`. -/
def cartLinesJoined (db : DB) (u : String) : List OrderItemRow :=
  (db.cartItems.filter (fun ci => ci.cartId == u)).filterMap
    (fun ci => (findProduct db ci.productId).map
      (fun p => { productId := ci.productId, quantity := ci.quantity, price := p.price }))

/-- Ordering used by checkout's `ORDER BY p.id`. -/
def byProductId (a b : OrderItemRow) : Prop := a.productId ≤ b.productId

instance : DecidableRel byProductId :=
  fun a b => inferInstanceAs (Decidable (a.productId ≤ b.productId))

/-- The checkout result set: the owner's cart lines joined with product
prices, in ascending product-id order. -/
def checkoutItems (db : DB) (u : String) : List OrderItemRow :=
  List.insertionSort byProductId (cartLinesJoined db u)

/-- Running total `total += float64(it.Quantity) * it.Price` over the rows. -/
def itemsTotal (items : List OrderItemRow) : Int :=
  items.foldl (fun acc it => acc + it.quantity * it.price) 0

/-- `PostgresStore.Checkout`: read the cart lines with prices (locked, in
ascending product-id order), fail on an empty cart, insert the order and
its items, delete the owner's cart items and cart record, commit.  Stock is
not touched.  Returns the committed state, the order row and the items. -/
def Checkout (db : DB) (u : String) : Except StoreError (DB × OrderRow × List OrderItemRow) :=
  let items := checkoutItems db u
  if items.isEmpty then .error .emptyCart
  else
    let total := itemsTotal items
    let oid := db.nextOrderId
    let db1 : DB :=
      { products := db.products
        carts := db.carts.filter (fun c => !(c == u))
        cartItems := db.cartItems.filter (fun ci => !(ci.cartId == u))
        orders := db.orders ++ [{ id := oid, userId := u, total := total }]
        orderItems := db.orderItems ++ items.map
          (fun it => { orderId := oid, productId := it.productId,
                       quantity := it.quantity, price := it.price })
        nextOrderId := oid + 1
        nextProductId := db.nextProductId }
    .ok (db1, { id := oid, userId := u, total := total }, items)

/-- `PostgresStore.UpdateStock`: absolute stock set; rejects a negative
target before any I/O, `sql.ErrNoRows` when no row was affected. -/
def UpdateStock (db : DB) (pid : Int) (newStock : Int) : Except StoreError DB :=
  if newStock < 0 then .error .invalidArgument
  else if db.products.any (fun p => p.id == pid) then
    .ok { db with products :=
            db.products.map (fun p => if p.id == pid then { p with stock := newStock } else p) }
  else .error .errNoRows

/-- `PostgresStore.CreateProduct`: insert a product (stock defaults to 0 per
the migration) and return its serial id. -/
def CreateProduct (db : DB) (name desc : String) (price : Int) : DB × Int :=
  let pid := db.nextProductId
  ({ db with
      products := db.products ++
        [{ id := pid, name := name, description := some desc, price := price, stock := 0 }]
      nextProductId := pid + 1 }, pid)

/-- One call of the reservation/checkout core, as seen by a caller. -/
inductive Op where
  | reserve (u : String) (pid : Int) (qty : Int)
  | release (u : String) (pid : Int)
  | checkout (u : String)
deriving Repr

/-- State after one call: the committed state on success, the unchanged
state when the operation failed (the transaction rolled back). -/
def applyOp (db : DB) : Op → DB
  | .reserve u pid qty =>
    match AddToCart db u pid qty with
    | .ok db1 => db1
    | .error _ => db
  | .release u pid =>
    match RemoveFromCart db u pid with
    | .ok db1 => db1
    | .error _ => db
  | .checkout u =>
    match Checkout db u with
    | .ok r => r.1
    | .error _ => db

/-- State after a sequence of calls. -/
def runOps (db : DB) (ops : List Op) : DB := ops.foldl applyOp db

/-- Current stock of a product (0 when the product row is absent). -/
def stockOf (db : DB) (pid : Int) : Int :=
  match findProduct db pid with
  | some p => p.stock
  | none => 0

/-- Stock read off a raw product-row list (list-level version of `stockOf`). -/
def stockRows (l : List ProductRow) (pid : Int) : Int :=
  match l.find? (fun p => p.id == pid) with
  | some p => p.stock
  | none => 0

/-- Sum of the quantities of the cart-item rows referencing `pid`. -/
def resSum (l : List CartItemRow) (pid : Int) : Int :=
  ((l.filter (fun ci => ci.productId == pid)).map (fun ci => ci.quantity)).sum

/-- Quantity of `pid` currently reserved in carts. -/
def reservedFor (db : DB) (pid : Int) : Int := resSum db.cartItems pid

/-- Sum of the quantities of the order-item rows referencing `pid`. -/
def ordSum (l : List OrderItemTableRow) (pid : Int) : Int :=
  ((l.filter (fun oi => oi.productId == pid)).map (fun oi => oi.quantity)).sum

/-- Quantity of `pid` already converted into orders. -/
def orderedFor (db : DB) (pid : Int) : Int := ordSum db.orderItems pid

/-- Primary-key invariant of `cart_items`: at most one row per
`(cart_id, product_id)`. -/
def KeysDistinct (l : List CartItemRow) : Prop :=
  l.Pairwise (fun a b => ¬(a.cartId = b.cartId ∧ a.productId = b.productId))

/-- Foreign-key invariant: every cart item references an existing product. -/
def FkOk (db : DB) : Prop :=
  ∀ ci ∈ db.cartItems, (findProduct db ci.productId).isSome = true

/-- Well-formed state: the two schema invariants the database enforces. -/
def Wf (db : DB) : Prop := KeysDistinct db.cartItems ∧ FkOk db

instance (l : List CartItemRow) : Decidable (KeysDistinct l) :=
  inferInstanceAs (Decidable (l.Pairwise _))

instance (db : DB) : Decidable (FkOk db) :=
  inferInstanceAs (Decidable (∀ ci ∈ db.cartItems, _))

instance (db : DB) : Decidable (Wf db) :=
  inferInstanceAs (Decidable (_ ∧ _))

/-- Sum of the quantities of the returned checkout items referencing `pid`. -/
def oiSum (items : List OrderItemRow) (pid : Int) : Int :=
  ((items.filter (fun it => it.productId == pid)).map (fun it => it.quantity)).sum

/-- The quantity that is conserved by every call of the core: stock on the
shelf plus stock reserved in carts plus stock already sold into orders. -/
def invTotal (db : DB) (pid : Int) : Int :=
  stockOf db pid + reservedFor db pid + orderedFor db pid

/-- Concrete state used by the witnesses: one product (id 1, price 2 cents,
stock 5), a second product (id 2, price 3 cents, stock 4), empty carts. -/
def exDB : DB :=
  { products := [{ id := 1, name := "p1", description := none, price := 2, stock := 5 },
                 { id := 2, name := "p2", description := some "d", price := 3, stock := 4 }]
    carts := []
    cartItems := []
    orders := []
    orderItems := []
    nextOrderId := 1
    nextProductId := 3 }

/-- Concrete state with one item already in `u1`'s cart (2 units of
product 1) and the matching stock already decremented to 3. -/
def exDBCart : DB :=
  { products := [{ id := 1, name := "p1", description := none, price := 2, stock := 3 },
                 { id := 2, name := "p2", description := some "d", price := 3, stock := 4 }]
    carts := ["u1"]
    cartItems := [{ cartId := "u1", productId := 1, quantity := 2 }]
    orders := []
    orderItems := []
    nextOrderId := 1
    nextProductId := 3 }

/-! ### Basic facts about the state helpers -/

theorem products_ensureCart (db : DB) (u : String) :
    (ensureCart db u).products = db.products := by
  unfold ensureCart
  split <;> rfl

theorem cartItems_ensureCart (db : DB) (u : String) :
    (ensureCart db u).cartItems = db.cartItems := by
  unfold ensureCart
  split <;> rfl

theorem orderItems_ensureCart (db : DB) (u : String) :
    (ensureCart db u).orderItems = db.orderItems := by
  unfold ensureCart
  split <;> rfl

theorem findProduct_ensureCart (db : DB) (u : String) (pid : Int) :
    findProduct (ensureCart db u) pid = findProduct db pid := by
  unfold findProduct
  rw [products_ensureCart]

theorem bumpQty_cartId (u : String) (pid : Int) (qty : Int) (ci : CartItemRow) :
    (bumpQty u pid qty ci).cartId = ci.cartId := by
  unfold bumpQty
  split <;> rfl

theorem bumpQty_productId (u : String) (pid : Int) (qty : Int) (ci : CartItemRow) :
    (bumpQty u pid qty ci).productId = ci.productId := by
  unfold bumpQty
  split <;> rfl

theorem sameKey_bumpQty (u : String) (pid : Int) (qty : Int) (v : String) (x : Int)
    (ci : CartItemRow) : sameKey v x (bumpQty u pid qty ci) = sameKey v x ci := by
  unfold sameKey
  rw [bumpQty_cartId, bumpQty_productId]

theorem find?_map_of_id (g : ProductRow → ProductRow) (hg : ∀ p, (g p).id = p.id)
    (x : Int) (l : List ProductRow) :
    (l.map g).find? (fun p => p.id == x) = (l.find? (fun p => p.id == x)).map g := by
  induction l with
  | nil => rfl
  | cons a t ih =>
    simp only [List.map_cons, List.find?_cons, hg]
    cases h : a.id == x
    · exact ih
    · rfl

theorem findProduct_updStock (db : DB) (pid x : Int) (f : Int → Int) :
    findProduct (updStock db pid f) x
      = (findProduct db x).map
          (fun p => if p.id == pid then { p with stock := f p.stock } else p) := by
  unfold findProduct updStock updStockRows
  exact find?_map_of_id _ (fun p => by split <;> rfl) x db.products

theorem findProduct_updStock_isSome (db : DB) (pid x : Int) (f : Int → Int) :
    (findProduct (updStock db pid f) x).isSome = (findProduct db x).isSome := by
  rw [findProduct_updStock]
  cases findProduct db x <;> rfl

theorem stockOf_updStock_self (db : DB) (pid : Int) (f : Int → Int) (p : ProductRow)
    (hp : findProduct db pid = some p) :
    stockOf (updStock db pid f) pid = f p.stock := by
  have hid : (p.id == pid) = true :=
    List.find?_some (p := fun q : ProductRow => q.id == pid) (a := p) (l := db.products) hp
  rw [beq_iff_eq] at hid
  unfold stockOf
  rw [findProduct_updStock, hp]
  simp [hid]

theorem stockOf_updStock_other (db : DB) (pid x : Int) (h : x ≠ pid) (f : Int → Int) :
    stockOf (updStock db pid f) x = stockOf db x := by
  unfold stockOf
  rw [findProduct_updStock]
  cases hfp : findProduct db x with
  | none => rfl
  | some p =>
    have hid : (p.id == x) = true :=
      List.find?_some (p := fun q : ProductRow => q.id == x) (a := p) (l := db.products) hfp
    rw [beq_iff_eq] at hid
    have hne : p.id ≠ pid := by
      rw [hid]
      exact h
    simp [hne]

theorem stockOf_eq_of_products_eq (db1 db2 : DB) (h : db1.products = db2.products) (pid : Int) :
    stockOf db1 pid = stockOf db2 pid := by
  unfold stockOf findProduct
  rw [h]

/-! ### Sums over cart items, order items and checkout items -/

theorem resSum_cons (a : CartItemRow) (t : List CartItemRow) (pid : Int) :
    resSum (a :: t) pid
      = (if a.productId == pid then a.quantity else 0) + resSum t pid := by
  unfold resSum
  cases h : a.productId == pid <;> simp [List.filter_cons, h]

theorem resSum_append (l1 l2 : List CartItemRow) (pid : Int) :
    resSum (l1 ++ l2) pid = resSum l1 pid + resSum l2 pid := by
  unfold resSum
  rw [List.filter_append, List.map_append, List.sum_append]

theorem resSum_filter_split (p : CartItemRow → Bool) (l : List CartItemRow) (pid : Int) :
    resSum (l.filter p) pid + resSum (l.filter (fun c => !(p c))) pid = resSum l pid := by
  induction l with
  | nil => rfl
  | cons a t ih =>
    cases hp : p a <;> simp [List.filter_cons, hp, resSum_cons] <;> omega

theorem ordSum_cons (a : OrderItemTableRow) (t : List OrderItemTableRow) (pid : Int) :
    ordSum (a :: t) pid
      = (if a.productId == pid then a.quantity else 0) + ordSum t pid := by
  unfold ordSum
  cases h : a.productId == pid <;> simp [List.filter_cons, h]

theorem ordSum_append (l1 l2 : List OrderItemTableRow) (pid : Int) :
    ordSum (l1 ++ l2) pid = ordSum l1 pid + ordSum l2 pid := by
  unfold ordSum
  rw [List.filter_append, List.map_append, List.sum_append]

theorem oiSum_cons (a : OrderItemRow) (t : List OrderItemRow) (pid : Int) :
    oiSum (a :: t) pid
      = (if a.productId == pid then a.quantity else 0) + oiSum t pid := by
  unfold oiSum
  cases h : a.productId == pid <;> simp [List.filter_cons, h]

theorem oiSum_of_perm (l1 l2 : List OrderItemRow) (h : l1.Perm l2) (pid : Int) :
    oiSum l1 pid = oiSum l2 pid := by
  unfold oiSum
  exact ((h.filter _).map _).sum_eq

theorem ordSum_map_tag (oid : Int) (items : List OrderItemRow) (pid : Int) :
    ordSum (items.map (fun it => ({ orderId := oid, productId := it.productId, quantity := it.quantity, price := it.price } : OrderItemTableRow))) pid
      = oiSum items pid := by
  induction items with
  | nil => rfl
  | cons a t ih =>
    rw [List.map_cons]
    simp only [ordSum_cons, oiSum_cons, ih]

theorem oiSum_join (db : DB) (l : List CartItemRow) (pid : Int)
    (h : ∀ ci ∈ l, (findProduct db ci.productId).isSome = true) :
    oiSum (l.filterMap (fun ci => (findProduct db ci.productId).map
      (fun p => { productId := ci.productId, quantity := ci.quantity, price := p.price }))) pid
      = resSum l pid := by
  induction l with
  | nil => rfl
  | cons a t ih =>
    obtain ⟨p, hp⟩ := Option.isSome_iff_exists.mp (h a (List.mem_cons_self a t))
    have hfa : (findProduct db a.productId).map
        (fun p => ({ productId := a.productId, quantity := a.quantity, price := p.price } : OrderItemRow))
        = some { productId := a.productId, quantity := a.quantity, price := p.price } := by
      simp [hp]
    rw [List.filterMap_cons_some (f := fun ci : CartItemRow => (findProduct db ci.productId).map
        (fun p => ({ productId := ci.productId, quantity := ci.quantity, price := p.price } : OrderItemRow)))
        hfa,
      oiSum_cons, resSum_cons,
      ih (fun ci hci => h ci (List.mem_cons_of_mem a hci))]

theorem cartLinesJoined_ne_nil (db : DB) (u : String) (hfk : FkOk db)
    (hne : db.cartItems.filter (fun ci => ci.cartId == u) ≠ []) :
    cartLinesJoined db u ≠ [] := by
  unfold cartLinesJoined
  cases hl : db.cartItems.filter (fun ci => ci.cartId == u) with
  | nil => exact absurd hl hne
  | cons a t =>
    have ha : a ∈ db.cartItems := by
      have hmem : a ∈ db.cartItems.filter (fun ci => ci.cartId == u) := by
        rw [hl]
        exact List.mem_cons_self a t
      exact (List.mem_filter.mp hmem).1
    obtain ⟨p, hp⟩ := Option.isSome_iff_exists.mp (hfk a ha)
    simp [hp]

theorem checkoutItems_perm (db : DB) (u : String) :
    (checkoutItems db u).Perm (cartLinesJoined db u) :=
  List.perm_insertionSort byProductId (cartLinesJoined db u)

theorem checkoutItems_ne_nil (db : DB) (u : String) (hfk : FkOk db)
    (hne : db.cartItems.filter (fun ci => ci.cartId == u) ≠ []) :
    checkoutItems db u ≠ [] := by
  intro h
  have hp := checkoutItems_perm db u
  rw [h] at hp
  exact cartLinesJoined_ne_nil db u hfk hne hp.symm.eq_nil

theorem foldl_add_eq (g : OrderItemRow → Int) (l : List OrderItemRow) (a : Int) :
    l.foldl (fun acc it => acc + g it) a = a + (l.map g).sum := by
  induction l generalizing a with
  | nil => simp
  | cons x t ih =>
    rw [List.foldl_cons, ih, List.map_cons, List.sum_cons]
    omega

theorem itemsTotal_eq_sum (items : List OrderItemRow) :
    itemsTotal items = (items.map (fun it => it.quantity * it.price)).sum := by
  unfold itemsTotal
  rw [foldl_add_eq (fun it => it.quantity * it.price) items 0]
  omega

theorem itemsTotal_checkoutItems (db : DB) (u : String) :
    itemsTotal (checkoutItems db u)
      = ((cartLinesJoined db u).map (fun it => it.quantity * it.price)).sum := by
  rw [itemsTotal_eq_sum]
  exact ((checkoutItems_perm db u).map _).sum_eq

/-! ### The cart-item upsert -/

theorem map_eq_self_of (f : CartItemRow → CartItemRow) (l : List CartItemRow)
    (h : ∀ c ∈ l, f c = c) : l.map f = l := by
  induction l with
  | nil => rfl
  | cons a t ih =>
    rw [List.map_cons, h a (List.mem_cons_self a t),
      ih (fun c hc => h c (List.mem_cons_of_mem a hc))]

theorem resSum_bump_map_self (u : String) (pid qty : Int) (l : List CartItemRow)
    (hd : KeysDistinct l) (hany : l.any (sameKey u pid) = true) :
    resSum (l.map (bumpQty u pid qty)) pid = resSum l pid + qty := by
  induction l with
  | nil => simp at hany
  | cons a t ih =>
    unfold KeysDistinct at hd
    rw [List.pairwise_cons] at hd
    rw [List.map_cons]
    cases hk : sameKey u pid a with
    | true =>
      have hu : a.cartId = u ∧ a.productId = pid := by
        simpa [sameKey, Bool.and_eq_true, beq_iff_eq] using hk
      have hnone : ∀ c ∈ t, sameKey u pid c = false := by
        intro c hc
        by_contra hcc
        rw [Bool.not_eq_false] at hcc
        have hc2 : c.cartId = u ∧ c.productId = pid := by
          simpa [sameKey, Bool.and_eq_true, beq_iff_eq] using hcc
        exact hd.1 c hc ⟨hu.1.trans hc2.1.symm, hu.2.trans hc2.2.symm⟩
      have hmap : t.map (bumpQty u pid qty) = t :=
        map_eq_self_of _ t (fun c hc => by simp [bumpQty, hnone c hc])
      have hb : bumpQty u pid qty a = { a with quantity := a.quantity + qty } := by
        simp [bumpQty, hk]
      rw [hmap, resSum_cons, resSum_cons, hb]
      simp [hu.2]
      omega
    | false =>
      have hany2 : t.any (sameKey u pid) = true := by
        rcases List.any_eq_true.mp hany with ⟨x, hx, hpx⟩
        rcases List.mem_cons.mp hx with rfl | hxt
        · simp [hk] at hpx
        · exact List.any_eq_true.mpr ⟨x, hxt, hpx⟩
      have hba : bumpQty u pid qty a = a := by simp [bumpQty, hk]
      rw [hba, resSum_cons, resSum_cons, ih hd.2 hany2]
      omega

theorem resSum_bump_map_other (u : String) (pid x qty : Int) (hx : x ≠ pid)
    (l : List CartItemRow) :
    resSum (l.map (bumpQty u pid qty)) x = resSum l x := by
  induction l with
  | nil => rfl
  | cons a t ih =>
    rw [List.map_cons, resSum_cons, resSum_cons, ih, bumpQty_productId]
    congr 1
    cases hax : a.productId == x with
    | false => rfl
    | true =>
      have hpid : (a.productId == pid) = false := by
        rw [beq_eq_false_iff_ne, beq_iff_eq.mp hax]
        exact hx
      have hsk : sameKey u pid a = false := by
        unfold sameKey
        rw [hpid, Bool.and_false]
      simp [bumpQty, hsk]

theorem resSum_upsert_self (u : String) (pid qty : Int) (l : List CartItemRow)
    (hd : KeysDistinct l) :
    resSum (upsertItems u pid qty l) pid = resSum l pid + qty := by
  unfold upsertItems
  split
  · exact resSum_bump_map_self u pid qty l hd (by assumption)
  · rw [resSum_append, resSum_cons]
    simp [resSum]

theorem resSum_upsert_other (u : String) (pid x qty : Int) (hx : x ≠ pid)
    (l : List CartItemRow) :
    resSum (upsertItems u pid qty l) x = resSum l x := by
  unfold upsertItems
  split
  · exact resSum_bump_map_other u pid x qty hx l
  · have hpx : ((pid : Int) == x) = false := by
      rw [beq_eq_false_iff_ne]
      exact fun hh => hx hh.symm
    rw [resSum_append, resSum_cons]
    simp [resSum, hpx]

theorem keysDistinct_bump_map (u : String) (pid qty : Int) (l : List CartItemRow)
    (hd : KeysDistinct l) : KeysDistinct (l.map (bumpQty u pid qty)) := by
  unfold KeysDistinct at hd ⊢
  rw [List.pairwise_map]
  exact hd.imp (fun {a b} hab => by
    rw [bumpQty_cartId, bumpQty_cartId, bumpQty_productId, bumpQty_productId]
    exact hab)

theorem keysDistinct_upsert (u : String) (pid qty : Int) (l : List CartItemRow)
    (hd : KeysDistinct l) : KeysDistinct (upsertItems u pid qty l) := by
  unfold upsertItems
  split
  · exact keysDistinct_bump_map u pid qty l hd
  · unfold KeysDistinct at hd ⊢
    rw [List.pairwise_append]
    refine ⟨hd, List.pairwise_singleton _ _, ?_⟩
    intro a ha b hb
    rw [List.mem_singleton] at hb
    subst hb
    rintro ⟨hc, hp⟩
    have hsk : sameKey u pid a = true := by
      simp [sameKey, beq_iff_eq]
      exact ⟨hc, hp⟩
    have hany : l.any (sameKey u pid) = true := List.any_eq_true.mpr ⟨a, ha, hsk⟩
    exact absurd hany (by assumption)

theorem mem_upsertItems (u : String) (pid qty : Int) (l : List CartItemRow)
    (ci : CartItemRow) (h : ci ∈ upsertItems u pid qty l) :
    (∃ c ∈ l, ci.productId = c.productId) ∨ ci.productId = pid := by
  unfold upsertItems at h
  split at h
  · rw [List.mem_map] at h
    obtain ⟨c, hc, rfl⟩ := h
    exact Or.inl ⟨c, hc, bumpQty_productId u pid qty c⟩
  · rw [List.mem_append] at h
    rcases h with h | h
    · exact Or.inl ⟨ci, h, rfl⟩
    · rw [List.mem_singleton] at h
      subst h
      exact Or.inr rfl

/-! ### The cart-item delete -/

theorem resSum_remove_found (u : String) (pid : Int) (l : List CartItemRow)
    (ci : CartItemRow) (hd : KeysDistinct l) (hf : l.find? (sameKey u pid) = some ci) :
    resSum (l.filter (fun c => !(sameKey u pid c))) pid = resSum l pid - ci.quantity := by
  induction l with
  | nil => simp at hf
  | cons a t ih =>
    unfold KeysDistinct at hd
    rw [List.pairwise_cons] at hd
    cases hk : sameKey u pid a with
    | true =>
      simp only [List.find?_cons, hk] at hf
      have hci : a = ci := by simpa using hf
      subst hci
      have hu : a.cartId = u ∧ a.productId = pid := by
        simpa [sameKey, Bool.and_eq_true, beq_iff_eq] using hk
      have hnone : ∀ c ∈ t, sameKey u pid c = false := by
        intro c hc
        by_contra hcc
        rw [Bool.not_eq_false] at hcc
        have hc2 : c.cartId = u ∧ c.productId = pid := by
          simpa [sameKey, Bool.and_eq_true, beq_iff_eq] using hcc
        exact hd.1 c hc ⟨hu.1.trans hc2.1.symm, hu.2.trans hc2.2.symm⟩
      have hkeep : t.filter (fun c => !(sameKey u pid c)) = t :=
        List.filter_eq_self.mpr (fun c hc => by rw [hnone c hc]; rfl)
      rw [List.filter_cons]
      simp only [hk, Bool.not_true]
      rw [if_neg (by simp), hkeep, resSum_cons]
      simp [hu.2]
    | false =>
      simp only [List.find?_cons, hk] at hf
      rw [List.filter_cons]
      simp only [hk, Bool.not_false]
      rw [if_pos (by simp), resSum_cons, resSum_cons, ih hd.2 hf]
      omega

theorem resSum_remove_other (u : String) (pid x : Int) (hx : x ≠ pid)
    (l : List CartItemRow) :
    resSum (l.filter (fun c => !(sameKey u pid c))) x = resSum l x := by
  induction l with
  | nil => rfl
  | cons a t ih =>
    rw [List.filter_cons]
    cases hk : sameKey u pid a with
    | true =>
      have hu : a.productId = pid := by
        have := by simpa [sameKey, Bool.and_eq_true, beq_iff_eq] using hk
        exact this.2
      have hax : (a.productId == x) = false := by
        rw [beq_eq_false_iff_ne, hu]
        exact fun hh => hx hh.symm
      simp only [hk, Bool.not_true]
      rw [if_neg (by simp), ih, resSum_cons]
      simp [hax]
    | false =>
      simp only [hk, Bool.not_false]
      rw [if_pos (by simp), resSum_cons, resSum_cons, ih]

theorem find?_filter_not_sameKey (u : String) (pid : Int) (l : List CartItemRow) :
    (l.filter (fun c => !(sameKey u pid c))).find? (sameKey u pid) = none := by
  rw [List.find?_eq_none]
  intro x hx
  have h2 := (List.mem_filter.mp hx).2
  rw [Bool.not_eq_true'] at h2
  simp [h2]

/-! ### Characterizations of the three core operations -/

theorem AddToCart_nonpos (db : DB) (u : String) (pid qty : Int) (h : qty ≤ 0) :
    AddToCart db u pid qty = .error .invalidArgument := by
  unfold AddToCart
  rw [if_pos h]

theorem AddToCart_noProduct (db : DB) (u : String) (pid qty : Int) (hq : 0 < qty)
    (hp : findProduct db pid = none) :
    AddToCart db u pid qty = .error .errNoRows := by
  unfold AddToCart
  rw [if_neg (by omega)]
  simp only [findProduct_ensureCart, hp]

theorem AddToCart_insufficient (db : DB) (u : String) (pid qty : Int) (p : ProductRow)
    (hq : 0 < qty) (hp : findProduct db pid = some p) (hs : p.stock < qty) :
    AddToCart db u pid qty = .error .insufficientStock := by
  unfold AddToCart
  rw [if_neg (by omega)]
  simp only [findProduct_ensureCart, hp]
  rw [if_pos hs]

theorem AddToCart_success (db : DB) (u : String) (pid qty : Int) (p : ProductRow)
    (hq : 0 < qty) (hp : findProduct db pid = some p) (hs : ¬ p.stock < qty) :
    AddToCart db u pid qty
      = .ok (updStock { ensureCart db u with cartItems := upsertItems u pid qty db.cartItems }
          pid (fun s => s - qty)) := by
  unfold AddToCart
  rw [if_neg (by omega)]
  simp only [findProduct_ensureCart, hp]
  rw [if_neg hs, cartItems_ensureCart]

theorem AddToCart_ok_inv (db : DB) (u : String) (pid qty : Int) (db1 : DB)
    (h : AddToCart db u pid qty = .ok db1) :
    0 < qty ∧ ∃ p, findProduct db pid = some p ∧ ¬ p.stock < qty ∧
      db1 = updStock { ensureCart db u with cartItems := upsertItems u pid qty db.cartItems }
              pid (fun s => s - qty) := by
  by_cases hq : qty ≤ 0
  · rw [AddToCart_nonpos db u pid qty hq] at h
    exact absurd h (by simp)
  · have hq2 : 0 < qty := by omega
    cases hp : findProduct db pid with
    | none =>
      rw [AddToCart_noProduct db u pid qty hq2 hp] at h
      exact absurd h (by simp)
    | some p =>
      by_cases hs : p.stock < qty
      · rw [AddToCart_insufficient db u pid qty p hq2 hp hs] at h
        exact absurd h (by simp)
      · rw [AddToCart_success db u pid qty p hq2 hp hs] at h
        refine ⟨hq2, p, rfl, hs, ?_⟩
        injection h with h2
        exact h2.symm

theorem AddToCart_error_inv (db : DB) (u : String) (pid qty : Int) (e : StoreError)
    (h : AddToCart db u pid qty = .error e) :
    applyOp db (.reserve u pid qty) = db := by
  show (match AddToCart db u pid qty with
    | .ok db1 => db1
    | .error _ => db) = db
  rw [h]

theorem RemoveFromCart_notFound (db : DB) (u : String) (pid : Int)
    (h : db.cartItems.find? (sameKey u pid) = none) :
    RemoveFromCart db u pid = .error .errNoRows := by
  unfold RemoveFromCart
  rw [h]

theorem RemoveFromCart_found (db : DB) (u : String) (pid : Int) (ci : CartItemRow)
    (h : db.cartItems.find? (sameKey u pid) = some ci) :
    RemoveFromCart db u pid
      = .ok (updStock { db with cartItems := db.cartItems.filter (fun c => !(sameKey u pid c)) }
          pid (fun s => s + ci.quantity)) := by
  unfold RemoveFromCart
  rw [h]

theorem RemoveFromCart_error_inv (db : DB) (u : String) (pid : Int) (e : StoreError)
    (h : RemoveFromCart db u pid = .error e) :
    applyOp db (.release u pid) = db := by
  show (match RemoveFromCart db u pid with
    | .ok db1 => db1
    | .error _ => db) = db
  rw [h]

theorem Checkout_empty (db : DB) (u : String)
    (h : db.cartItems.filter (fun ci => ci.cartId == u) = []) :
    Checkout db u = .error .emptyCart := by
  have hj : cartLinesJoined db u = [] := by
    unfold cartLinesJoined
    rw [h]
    rfl
  have hc : checkoutItems db u = [] := by
    unfold checkoutItems
    rw [hj]
    rfl
  unfold Checkout
  simp only [hc]
  rfl

theorem Checkout_nonempty (db : DB) (u : String) (h : checkoutItems db u ≠ []) :
    Checkout db u = .ok
      ({ products := db.products
         carts := db.carts.filter (fun c => !(c == u))
         cartItems := db.cartItems.filter (fun ci => !(ci.cartId == u))
         orders := db.orders ++ [{ id := db.nextOrderId, userId := u, total := itemsTotal (checkoutItems db u) }]
         orderItems := db.orderItems ++ (checkoutItems db u).map (fun it => { orderId := db.nextOrderId, productId := it.productId, quantity := it.quantity, price := it.price })
         nextOrderId := db.nextOrderId + 1
         nextProductId := db.nextProductId },
       { id := db.nextOrderId, userId := u, total := itemsTotal (checkoutItems db u) },
       checkoutItems db u) := by
  unfold Checkout
  rw [if_neg (by rw [List.isEmpty_iff]; exact h)]

theorem Checkout_error_inv (db : DB) (u : String) (e : StoreError)
    (h : Checkout db u = .error e) :
    applyOp db (.checkout u) = db := by
  show (match Checkout db u with
    | .ok r => r.1
    | .error _ => db) = db
  rw [h]

theorem Checkout_ok_inv (db : DB) (u : String) (db1 : DB) (ord : OrderRow)
    (items : List OrderItemRow) (h : Checkout db u = .ok (db1, ord, items)) :
    items = checkoutItems db u ∧ checkoutItems db u ≠ [] ∧
      ord = { id := db.nextOrderId, userId := u, total := itemsTotal (checkoutItems db u) } ∧
      db1 = { products := db.products
              carts := db.carts.filter (fun c => !(c == u))
              cartItems := db.cartItems.filter (fun ci => !(ci.cartId == u))
              orders := db.orders ++ [{ id := db.nextOrderId, userId := u, total := itemsTotal (checkoutItems db u) }]
              orderItems := db.orderItems ++ (checkoutItems db u).map (fun it => { orderId := db.nextOrderId, productId := it.productId, quantity := it.quantity, price := it.price })
              nextOrderId := db.nextOrderId + 1
              nextProductId := db.nextProductId } := by
  by_cases hne : checkoutItems db u = []
  · unfold Checkout at h
    simp only [hne] at h
    exact absurd h (by simp)
  · rw [Checkout_nonempty db u hne] at h
    injection h with h2
    rw [Prod.mk.injEq, Prod.mk.injEq] at h2
    exact ⟨h2.2.2.symm, hne, h2.2.1.symm, h2.1.symm⟩

/-! ### List-level stock lemmas and projections of the operation results -/

theorem orders_ensureCart (db : DB) (u : String) : (ensureCart db u).orders = db.orders := by
  unfold ensureCart
  split <;> rfl

theorem nextOrderId_ensureCart (db : DB) (u : String) :
    (ensureCart db u).nextOrderId = db.nextOrderId := by
  unfold ensureCart
  split <;> rfl

theorem stockOf_eq_stockRows (db : DB) (pid : Int) :
    stockOf db pid = stockRows db.products pid := rfl

theorem find?_updStockRows (pid x : Int) (f : Int → Int) (l : List ProductRow) :
    (updStockRows pid f l).find? (fun p => p.id == x)
      = (l.find? (fun p => p.id == x)).map
          (fun p => if p.id == pid then { p with stock := f p.stock } else p) := by
  unfold updStockRows
  exact find?_map_of_id _ (fun p => by split <;> rfl) x l

theorem stockRows_upd_self (pid : Int) (f : Int → Int) (l : List ProductRow) (p : ProductRow)
    (hp : l.find? (fun q => q.id == pid) = some p) :
    stockRows (updStockRows pid f l) pid = f p.stock := by
  have hid : (p.id == pid) = true :=
    List.find?_some (p := fun q : ProductRow => q.id == pid) (a := p) (l := l) hp
  rw [beq_iff_eq] at hid
  unfold stockRows
  rw [find?_updStockRows, hp]
  simp [hid]

theorem stockRows_upd_other (pid x : Int) (hx : x ≠ pid) (f : Int → Int)
    (l : List ProductRow) :
    stockRows (updStockRows pid f l) x = stockRows l x := by
  unfold stockRows
  rw [find?_updStockRows]
  cases hfp : l.find? (fun q => q.id == x) with
  | none => rfl
  | some p =>
    have hid : (p.id == x) = true :=
      List.find?_some (p := fun q : ProductRow => q.id == x) (a := p) (l := l) hfp
    rw [beq_iff_eq] at hid
    have hne : p.id ≠ pid := by
      rw [hid]
      exact hx
    simp [hne]

theorem find?_updStockRows_isSome (pid x : Int) (f : Int → Int) (l : List ProductRow) :
    ((updStockRows pid f l).find? (fun p => p.id == x)).isSome
      = (l.find? (fun p => p.id == x)).isSome := by
  rw [find?_updStockRows]
  cases l.find? (fun p => p.id == x) <;> rfl

theorem reserveResult_products (db : DB) (u : String) (pid qty : Int) :
    (updStock { ensureCart db u with cartItems := upsertItems u pid qty db.cartItems } pid
      (fun s => s - qty)).products = updStockRows pid (fun s => s - qty) db.products := by
  show updStockRows pid (fun s => s - qty) (ensureCart db u).products = _
  rw [products_ensureCart]

theorem reserveResult_cartItems (db : DB) (u : String) (pid qty : Int) :
    (updStock { ensureCart db u with cartItems := upsertItems u pid qty db.cartItems } pid
      (fun s => s - qty)).cartItems = upsertItems u pid qty db.cartItems := rfl

theorem reserveResult_orderItems (db : DB) (u : String) (pid qty : Int) :
    (updStock { ensureCart db u with cartItems := upsertItems u pid qty db.cartItems } pid
      (fun s => s - qty)).orderItems = db.orderItems := orderItems_ensureCart db u

theorem reserveResult_orders (db : DB) (u : String) (pid qty : Int) :
    (updStock { ensureCart db u with cartItems := upsertItems u pid qty db.cartItems } pid
      (fun s => s - qty)).orders = db.orders := orders_ensureCart db u

theorem reserveResult_stock_self (db : DB) (u : String) (pid qty : Int) (p : ProductRow)
    (hp : findProduct db pid = some p) :
    stockOf (updStock { ensureCart db u with cartItems := upsertItems u pid qty db.cartItems }
      pid (fun s => s - qty)) pid = p.stock - qty := by
  rw [stockOf_eq_stockRows, reserveResult_products]
  exact stockRows_upd_self pid _ db.products p hp

theorem reserveResult_stock_other (db : DB) (u : String) (pid qty x : Int) (hx : x ≠ pid) :
    stockOf (updStock { ensureCart db u with cartItems := upsertItems u pid qty db.cartItems }
      pid (fun s => s - qty)) x = stockOf db x := by
  rw [stockOf_eq_stockRows, reserveResult_products, stockRows_upd_other pid x hx]
  exact (stockOf_eq_stockRows db x).symm

theorem reserveResult_findProduct_isSome (db : DB) (u : String) (pid qty : Int) (y : Int) :
    (findProduct (updStock { ensureCart db u with cartItems := upsertItems u pid qty db.cartItems }
      pid (fun s => s - qty)) y).isSome = (findProduct db y).isSome := by
  unfold findProduct
  rw [reserveResult_products, find?_updStockRows_isSome]

theorem removeResult_stock_self (db : DB) (u : String) (pid q : Int) (p : ProductRow)
    (hp : findProduct db pid = some p) :
    stockOf (updStock { db with cartItems := db.cartItems.filter (fun c => !(sameKey u pid c)) }
      pid (fun s => s + q)) pid = p.stock + q := by
  rw [stockOf_eq_stockRows]
  rw [show (updStock { db with cartItems := db.cartItems.filter (fun c => !(sameKey u pid c)) } pid (fun s => s + q)).products = updStockRows pid (fun s => s + q) db.products from rfl]
  exact stockRows_upd_self pid _ db.products p hp

theorem removeResult_stock_other (db : DB) (u : String) (pid q x : Int) (hx : x ≠ pid) :
    stockOf (updStock { db with cartItems := db.cartItems.filter (fun c => !(sameKey u pid c)) }
      pid (fun s => s + q)) x = stockOf db x := by
  rw [stockOf_eq_stockRows]
  have h2 := stockRows_upd_other pid x hx (fun s => s + q) db.products
  rw [show (updStock { db with cartItems := db.cartItems.filter (fun c => !(sameKey u pid c)) } pid (fun s => s + q)).products = updStockRows pid (fun s => s + q) db.products from rfl, h2]
  exact (stockOf_eq_stockRows db x).symm

theorem removeResult_findProduct_isSome (db : DB) (u : String) (pid q : Int) (y : Int) :
    (findProduct (updStock { db with cartItems := db.cartItems.filter (fun c => !(sameKey u pid c)) }
      pid (fun s => s + q)) y).isSome = (findProduct db y).isSome := by
  unfold findProduct
  rw [show (updStock { db with cartItems := db.cartItems.filter (fun c => !(sameKey u pid c)) } pid (fun s => s + q)).products = updStockRows pid (fun s => s + q) db.products from rfl]
  exact find?_updStockRows_isSome pid y _ db.products

/-! ### Conservation of stock + reserved + ordered quantity, and invariants -/

theorem invTotal_AddToCart (db : DB) (u : String) (pid qty : Int) (db1 : DB)
    (hd : KeysDistinct db.cartItems) (h : AddToCart db u pid qty = .ok db1) (x : Int) :
    invTotal db1 x = invTotal db x := by
  obtain ⟨hq, p, hp, hs, hdb1⟩ := AddToCart_ok_inv db u pid qty db1 h
  subst hdb1
  unfold invTotal reservedFor orderedFor
  rw [reserveResult_cartItems, reserveResult_orderItems]
  by_cases hx : x = pid
  · subst hx
    rw [reserveResult_stock_self db u x qty p hp, resSum_upsert_self u x qty db.cartItems hd]
    have hstockdb : stockOf db x = p.stock := by
      unfold stockOf
      rw [hp]
    rw [hstockdb]
    omega
  · rw [reserveResult_stock_other db u pid qty x hx,
      resSum_upsert_other u pid x qty hx db.cartItems]

theorem invTotal_RemoveFromCart (db : DB) (u : String) (pid : Int) (db1 : DB)
    (hd : KeysDistinct db.cartItems) (hfk : FkOk db)
    (h : RemoveFromCart db u pid = .ok db1) (x : Int) :
    invTotal db1 x = invTotal db x := by
  cases hf : db.cartItems.find? (sameKey u pid) with
  | none =>
    rw [RemoveFromCart_notFound db u pid hf] at h
    exact absurd h (by simp)
  | some ci =>
    rw [RemoveFromCart_found db u pid ci hf] at h
    injection h with h2
    subst h2
    have hciMem : ci ∈ db.cartItems := List.mem_of_find?_eq_some hf
    have hck : sameKey u pid ci = true :=
      List.find?_some (p := sameKey u pid) (a := ci) (l := db.cartItems) hf
    have hcp : ci.cartId = u ∧ ci.productId = pid := by
      simpa [sameKey, Bool.and_eq_true, beq_iff_eq] using hck
    obtain ⟨p, hp⟩ := Option.isSome_iff_exists.mp (hfk ci hciMem)
    rw [hcp.2] at hp
    unfold invTotal reservedFor orderedFor
    rw [show (updStock { db with cartItems := db.cartItems.filter (fun c => !(sameKey u pid c)) } pid (fun s => s + ci.quantity)).cartItems = db.cartItems.filter (fun c => !(sameKey u pid c)) from rfl]
    rw [show (updStock { db with cartItems := db.cartItems.filter (fun c => !(sameKey u pid c)) } pid (fun s => s + ci.quantity)).orderItems = db.orderItems from rfl]
    by_cases hx : x = pid
    · subst hx
      rw [removeResult_stock_self db u x ci.quantity p hp,
        resSum_remove_found u x db.cartItems ci hd hf]
      have hstockdb : stockOf db x = p.stock := by
        unfold stockOf
        rw [hp]
      rw [hstockdb]
      omega
    · rw [removeResult_stock_other db u pid ci.quantity x hx,
        resSum_remove_other u pid x hx db.cartItems]

theorem invTotal_Checkout (db : DB) (u : String) (db1 : DB) (ord : OrderRow)
    (items : List OrderItemRow) (hfk : FkOk db)
    (h : Checkout db u = .ok (db1, ord, items)) (x : Int) :
    invTotal db1 x = invTotal db x := by
  obtain ⟨hitems, hne, hord, hdb1⟩ := Checkout_ok_inv db u db1 ord items h
  subst hdb1
  unfold invTotal reservedFor orderedFor stockOf findProduct
  dsimp only
  rw [ordSum_append, ordSum_map_tag]
  have hjoin : oiSum (checkoutItems db u) x
      = resSum (db.cartItems.filter (fun ci => ci.cartId == u)) x := by
    rw [oiSum_of_perm _ _ (checkoutItems_perm db u) x]
    exact oiSum_join db _ x (fun ci hci => hfk ci (List.mem_filter.mp hci).1)
  rw [hjoin]
  have hsplit : resSum (db.cartItems.filter (fun ci => ci.cartId == u)) x
      + resSum (db.cartItems.filter (fun ci => !(ci.cartId == u))) x
      = resSum db.cartItems x :=
    resSum_filter_split (fun ci => ci.cartId == u) db.cartItems x
  omega

theorem wf_AddToCart (db : DB) (u : String) (pid qty : Int) (db1 : DB)
    (hw : Wf db) (h : AddToCart db u pid qty = .ok db1) : Wf db1 := by
  obtain ⟨hq, p, hp, hs, hdb1⟩ := AddToCart_ok_inv db u pid qty db1 h
  subst hdb1
  constructor
  · rw [reserveResult_cartItems]
    exact keysDistinct_upsert u pid qty db.cartItems hw.1
  · intro ci hci
    rw [reserveResult_findProduct_isSome]
    rw [reserveResult_cartItems] at hci
    rcases mem_upsertItems u pid qty db.cartItems ci hci with ⟨c, hc, hcp⟩ | hcp
    · rw [hcp]
      exact hw.2 c hc
    · rw [hcp, hp]
      rfl

theorem wf_RemoveFromCart (db : DB) (u : String) (pid : Int) (db1 : DB)
    (hw : Wf db) (h : RemoveFromCart db u pid = .ok db1) : Wf db1 := by
  cases hf : db.cartItems.find? (sameKey u pid) with
  | none =>
    rw [RemoveFromCart_notFound db u pid hf] at h
    exact absurd h (by simp)
  | some ci =>
    rw [RemoveFromCart_found db u pid ci hf] at h
    injection h with h2
    subst h2
    constructor
    · rw [show (updStock { db with cartItems := db.cartItems.filter (fun c => !(sameKey u pid c)) } pid (fun s => s + ci.quantity)).cartItems = db.cartItems.filter (fun c => !(sameKey u pid c)) from rfl]
      exact hw.1.filter _
    · intro x hx
      rw [removeResult_findProduct_isSome]
      rw [show (updStock { db with cartItems := db.cartItems.filter (fun c => !(sameKey u pid c)) } pid (fun s => s + ci.quantity)).cartItems = db.cartItems.filter (fun c => !(sameKey u pid c)) from rfl] at hx
      exact hw.2 x (List.mem_filter.mp hx).1

theorem wf_Checkout (db : DB) (u : String) (db1 : DB) (ord : OrderRow)
    (items : List OrderItemRow) (hw : Wf db)
    (h : Checkout db u = .ok (db1, ord, items)) : Wf db1 := by
  obtain ⟨hitems, hne, hord, hdb1⟩ := Checkout_ok_inv db u db1 ord items h
  subst hdb1
  constructor
  · show KeysDistinct (db.cartItems.filter (fun ci => !(ci.cartId == u)))
    exact hw.1.filter _
  · intro x hx
    have hx2 : x ∈ db.cartItems :=
      (List.mem_filter.mp (show x ∈ db.cartItems.filter (fun ci => !(ci.cartId == u)) from hx)).1
    exact hw.2 x hx2

theorem applyOp_reserve_ok (db : DB) (u : String) (pid qty : Int) (db1 : DB)
    (h : AddToCart db u pid qty = .ok db1) : applyOp db (.reserve u pid qty) = db1 := by
  show (match AddToCart db u pid qty with
    | .ok d => d
    | .error _ => db) = db1
  rw [h]

theorem applyOp_release_ok (db : DB) (u : String) (pid : Int) (db1 : DB)
    (h : RemoveFromCart db u pid = .ok db1) : applyOp db (.release u pid) = db1 := by
  show (match RemoveFromCart db u pid with
    | .ok d => d
    | .error _ => db) = db1
  rw [h]

theorem applyOp_checkout_ok (db : DB) (u : String) (r : DB × OrderRow × List OrderItemRow)
    (h : Checkout db u = .ok r) : applyOp db (.checkout u) = r.1 := by
  show (match Checkout db u with
    | .ok d => d.1
    | .error _ => db) = r.1
  rw [h]

theorem wf_applyOp (db : DB) (op : Op) (hw : Wf db) : Wf (applyOp db op) := by
  cases op with
  | reserve u pid qty =>
    cases h : AddToCart db u pid qty with
    | ok db1 =>
      rw [applyOp_reserve_ok db u pid qty db1 h]
      exact wf_AddToCart db u pid qty db1 hw h
    | error e =>
      rw [AddToCart_error_inv db u pid qty e h]
      exact hw
  | release u pid =>
    cases h : RemoveFromCart db u pid with
    | ok db1 =>
      rw [applyOp_release_ok db u pid db1 h]
      exact wf_RemoveFromCart db u pid db1 hw h
    | error e =>
      rw [RemoveFromCart_error_inv db u pid e h]
      exact hw
  | checkout u =>
    cases h : Checkout db u with
    | ok r =>
      rw [applyOp_checkout_ok db u r h]
      exact wf_Checkout db u r.1 r.2.1 r.2.2 hw h
    | error e =>
      rw [Checkout_error_inv db u e h]
      exact hw

theorem invTotal_applyOp (db : DB) (op : Op) (hw : Wf db) (x : Int) :
    invTotal (applyOp db op) x = invTotal db x := by
  cases op with
  | reserve u pid qty =>
    cases h : AddToCart db u pid qty with
    | ok db1 =>
      rw [applyOp_reserve_ok db u pid qty db1 h]
      exact invTotal_AddToCart db u pid qty db1 hw.1 h x
    | error e =>
      rw [AddToCart_error_inv db u pid qty e h]
  | release u pid =>
    cases h : RemoveFromCart db u pid with
    | ok db1 =>
      rw [applyOp_release_ok db u pid db1 h]
      exact invTotal_RemoveFromCart db u pid db1 hw.1 hw.2 h x
    | error e =>
      rw [RemoveFromCart_error_inv db u pid e h]
  | checkout u =>
    cases h : Checkout db u with
    | ok r =>
      rw [applyOp_checkout_ok db u r h]
      exact invTotal_Checkout db u r.1 r.2.1 r.2.2 hw.2 h x
    | error e =>
      rw [Checkout_error_inv db u e h]

theorem wf_runOps (db : DB) (ops : List Op) (hw : Wf db) : Wf (runOps db ops) := by
  induction ops generalizing db with
  | nil => exact hw
  | cons op t ih =>
    show Wf (runOps (applyOp db op) t)
    exact ih (applyOp db op) (wf_applyOp db op hw)

theorem invTotal_runOps (db : DB) (ops : List Op) (hw : Wf db) (x : Int) :
    invTotal (runOps db ops) x = invTotal db x := by
  induction ops generalizing db with
  | nil => rfl
  | cons op t ih =>
    show invTotal (runOps (applyOp db op) t) x = invTotal db x
    rw [ih (applyOp db op) (wf_applyOp db op hw), invTotal_applyOp db op hw x]

/-! ### Fine-grained facts about the upsert used by claim C6 -/

theorem find?_bump_map (u : String) (pid qty : Int) (l : List CartItemRow) (ci : CartItemRow)
    (hf : l.find? (sameKey u pid) = some ci) :
    (l.map (bumpQty u pid qty)).find? (sameKey u pid)
      = some { ci with quantity := ci.quantity + qty } := by
  induction l with
  | nil => simp at hf
  | cons a t ih =>
    rw [List.map_cons]
    cases hk : sameKey u pid a with
    | true =>
      simp only [List.find?_cons, hk] at hf
      have ha : a = ci := by simpa using hf
      subst ha
      simp only [List.find?_cons, sameKey_bumpQty, hk]
      simp [bumpQty, hk]
    | false =>
      simp only [List.find?_cons, hk] at hf
      simp only [List.find?_cons, sameKey_bumpQty, hk]
      exact ih hf

theorem filter_not_bump_map (u : String) (pid qty : Int) (l : List CartItemRow) :
    (l.map (bumpQty u pid qty)).filter (fun c => !(sameKey u pid c))
      = l.filter (fun c => !(sameKey u pid c)) := by
  induction l with
  | nil => rfl
  | cons a t ih =>
    rw [List.map_cons, List.filter_cons, List.filter_cons]
    cases hk : sameKey u pid a with
    | true =>
      simp only [sameKey_bumpQty, hk, Bool.not_true]
      simpa using ih
    | false =>
      have hba : bumpQty u pid qty a = a := by simp [bumpQty, hk]
      simp only [sameKey_bumpQty, hk, Bool.not_false, hba]
      simpa using ih

/-! ### Claims -/

/-- Claim C1, stated as written, is false on the code: checkout deletes the
cart-item rows without touching stock, so after `[Reserve u1 p1 2, Checkout u1]`
from stock 5 the stock is 3 while `initial − Σ(outstanding cart quantities)`
is 5 − 0 = 5. -/
theorem C1_counterexample :
    ¬ (stockOf (runOps exDB [Op.reserve "u1" 1 2, Op.checkout "u1"]) 1
        = stockOf exDB 1
          - reservedFor (runOps exDB [Op.reserve "u1" 1 2, Op.checkout "u1"]) 1) := by
  decide

/-- Claim C1 (amended): for every product, after any sequence of Reserve,
Release and Checkout calls starting from a well-formed state in which no
cart-item row and no order-item row references the product, the product's
stock equals its initial stock minus the quantities currently reserved in
cart items minus the quantities already converted into order items
(checkout moves reservations into order items without changing stock, so
checked-out quantities stay deducted). -/
theorem C1_stock_conservation (db : DB) (ops : List Op) (pid : Int) (hw : Wf db)
    (hres : reservedFor db pid = 0) (hord : orderedFor db pid = 0) :
    stockOf (runOps db ops) pid
      = stockOf db pid - reservedFor (runOps db ops) pid
        - orderedFor (runOps db ops) pid := by
  have h1 := invTotal_runOps db ops hw pid
  unfold invTotal at h1
  omega

/-- Witness for C1 at a concrete state and trace. -/
theorem C1_witness :
    Wf exDB ∧ reservedFor exDB 1 = 0 ∧ orderedFor exDB 1 = 0 ∧
      stockOf (runOps exDB [Op.reserve "u1" 1 2, Op.checkout "u1"]) 1
        = stockOf exDB 1
          - reservedFor (runOps exDB [Op.reserve "u1" 1 2, Op.checkout "u1"]) 1
          - orderedFor (runOps exDB [Op.reserve "u1" 1 2, Op.checkout "u1"]) 1 :=
  ⟨by decide, by decide, by decide,
    C1_stock_conservation exDB [Op.reserve "u1" 1 2, Op.checkout "u1"] 1
      (by decide) (by decide) (by decide)⟩

/-- Claim C2: for an existing product and a positive quantity, Reserve fails
with InsufficientStock exactly when stock < quantity; any failed Reserve
leaves the state unchanged; and a successful Reserve never drives a
non-negative stock negative. -/
theorem C2_insufficient_iff (db : DB) (u : String) (pid qty : Int) (p : ProductRow)
    (hp : findProduct db pid = some p) (hq : 0 < qty) :
    (AddToCart db u pid qty = .error .insufficientStock ↔ p.stock < qty)
    ∧ (∀ e, AddToCart db u pid qty = .error e → applyOp db (.reserve u pid qty) = db)
    ∧ (0 ≤ p.stock → ∀ db1, AddToCart db u pid qty = .ok db1 → 0 ≤ stockOf db1 pid) := by
  refine ⟨⟨?_, ?_⟩, ?_, ?_⟩
  · intro he
    by_contra hs
    rw [AddToCart_success db u pid qty p hq hp hs] at he
    exact absurd he (by simp)
  · intro hs
    exact AddToCart_insufficient db u pid qty p hq hp hs
  · intro e he
    exact AddToCart_error_inv db u pid qty e he
  · intro hps db1 h1
    obtain ⟨hq2, p2, hp2, hs2, hdb1⟩ := AddToCart_ok_inv db u pid qty db1 h1
    rw [hp] at hp2
    injection hp2 with h3
    subst h3
    subst hdb1
    rw [reserveResult_stock_self db u pid qty p hp]
    omega

/-- Witness for C2 at a concrete state. -/
theorem C2_witness :
    findProduct exDB 1
        = some { id := 1, name := "p1", description := none, price := 2, stock := 5 }
    ∧ (0:Int) < 3
    ∧ ((AddToCart exDB "u1" 1 3 = .error .insufficientStock
          ↔ ({ id := 1, name := "p1", description := none, price := 2, stock := 5 } : ProductRow).stock < 3)
        ∧ (∀ e, AddToCart exDB "u1" 1 3 = .error e
            → applyOp exDB (.reserve "u1" 1 3) = exDB)
        ∧ (0 ≤ ({ id := 1, name := "p1", description := none, price := 2, stock := 5 } : ProductRow).stock
            → ∀ db1, AddToCart exDB "u1" 1 3 = .ok db1 → 0 ≤ stockOf db1 1)) :=
  ⟨by decide, by decide,
    C2_insufficient_iff exDB "u1" 1 3
      { id := 1, name := "p1", description := none, price := 2, stock := 5 }
      (by decide) (by decide)⟩

/-- Claim C3: for an owner with a non-empty cart (in a state satisfying the
foreign-key invariant), Checkout succeeds; the order total is the sum of
quantity times the price read inside the transaction over the owner's cart
lines; one order item is written per cart line with that same price
snapshot; and the owner's cart-item rows and cart record are deleted. -/
theorem C3_checkout_success (db : DB) (u : String) (hfk : FkOk db)
    (hne : db.cartItems.filter (fun ci => ci.cartId == u) ≠ []) :
    ∃ db1 ord items, Checkout db u = .ok (db1, ord, items)
      ∧ ord.total = ((cartLinesJoined db u).map (fun it => it.quantity * it.price)).sum
      ∧ items.Perm (cartLinesJoined db u)
      ∧ db1.orders = db.orders ++ [ord]
      ∧ db1.orderItems = db.orderItems ++ items.map (fun it => ({ orderId := ord.id, productId := it.productId, quantity := it.quantity, price := it.price } : OrderItemTableRow))
      ∧ db1.cartItems = db.cartItems.filter (fun ci => !(ci.cartId == u))
      ∧ db1.carts = db.carts.filter (fun c => !(c == u)) := by
  have hni := checkoutItems_ne_nil db u hfk hne
  refine ⟨_, _, _, Checkout_nonempty db u hni, ?_, checkoutItems_perm db u, rfl, rfl, rfl, rfl⟩
  show itemsTotal (checkoutItems db u) = _
  exact itemsTotal_checkoutItems db u

/-- Witness for C3 at a concrete state with one cart line. -/
theorem C3_witness :
    ∃ db1 ord items, Checkout exDBCart "u1" = .ok (db1, ord, items)
      ∧ ord.total
          = ((cartLinesJoined exDBCart "u1").map (fun it => it.quantity * it.price)).sum
      ∧ items.Perm (cartLinesJoined exDBCart "u1")
      ∧ db1.orders = exDBCart.orders ++ [ord]
      ∧ db1.orderItems = exDBCart.orderItems ++ items.map (fun it => ({ orderId := ord.id, productId := it.productId, quantity := it.quantity, price := it.price } : OrderItemTableRow))
      ∧ db1.cartItems = exDBCart.cartItems.filter (fun ci => !(ci.cartId == "u1"))
      ∧ db1.carts = exDBCart.carts.filter (fun c => !(c == "u1")) :=
  C3_checkout_success exDBCart "u1" (by decide) (by decide)

/-- Claim C4: Checkout never modifies any product row, hence no product's
stock, whether it succeeds or fails. -/
theorem C4_checkout_stock_frame (db : DB) (u : String) :
    (applyOp db (.checkout u)).products = db.products
    ∧ ∀ pid, stockOf (applyOp db (.checkout u)) pid = stockOf db pid := by
  have hprod : (applyOp db (.checkout u)).products = db.products := by
    cases h : Checkout db u with
    | ok r =>
      rw [applyOp_checkout_ok db u r h]
      obtain ⟨hi, hne, hord, hdb1⟩ := Checkout_ok_inv db u r.1 r.2.1 r.2.2 h
      rw [hdb1]
    | error e =>
      rw [Checkout_error_inv db u e h]
  exact ⟨hprod, fun pid => stockOf_eq_of_products_eq _ _ hprod pid⟩

/-- Claim C5: Release on an absent cart line fails with NotFound and changes
nothing; on a present line it deletes the whole row and restores exactly its
quantity to stock, and a second Release then yields NotFound with no further
stock change. -/
theorem C5_release (db : DB) (u : String) (pid : Int) (ci : CartItemRow) (p : ProductRow)
    (hf : db.cartItems.find? (sameKey u pid) = some ci)
    (hp : findProduct db pid = some p) :
    (∀ db0 : DB, db0.cartItems.find? (sameKey u pid) = none →
        RemoveFromCart db0 u pid = .error .errNoRows ∧ applyOp db0 (.release u pid) = db0)
    ∧ ∃ db1, RemoveFromCart db u pid = .ok db1
        ∧ db1.cartItems = db.cartItems.filter (fun c => !(sameKey u pid c))
        ∧ stockOf db pid = p.stock
        ∧ stockOf db1 pid = p.stock + ci.quantity
        ∧ RemoveFromCart db1 u pid = .error .errNoRows
        ∧ applyOp db1 (.release u pid) = db1 := by
  constructor
  · intro db0 h0
    have he := RemoveFromCart_notFound db0 u pid h0
    exact ⟨he, RemoveFromCart_error_inv db0 u pid _ he⟩
  · refine ⟨_, RemoveFromCart_found db u pid ci hf, rfl, ?_, ?_, ?_, ?_⟩
    · unfold stockOf
      rw [hp]
    · exact removeResult_stock_self db u pid ci.quantity p hp
    · apply RemoveFromCart_notFound
      show (db.cartItems.filter (fun c => !(sameKey u pid c))).find? (sameKey u pid) = none
      exact find?_filter_not_sameKey u pid db.cartItems
    · apply RemoveFromCart_error_inv (e := .errNoRows)
      apply RemoveFromCart_notFound
      show (db.cartItems.filter (fun c => !(sameKey u pid c))).find? (sameKey u pid) = none
      exact find?_filter_not_sameKey u pid db.cartItems

/-- Witness for C5 at a concrete state with one cart line. -/
theorem C5_witness :
    exDBCart.cartItems.find? (sameKey "u1" 1)
        = some { cartId := "u1", productId := 1, quantity := 2 }
    ∧ findProduct exDBCart 1
        = some { id := 1, name := "p1", description := none, price := 2, stock := 3 }
    ∧ ((∀ db0 : DB, db0.cartItems.find? (sameKey "u1" 1) = none →
          RemoveFromCart db0 "u1" 1 = .error .errNoRows
          ∧ applyOp db0 (.release "u1" 1) = db0)
        ∧ ∃ db1, RemoveFromCart exDBCart "u1" 1 = .ok db1
            ∧ db1.cartItems = exDBCart.cartItems.filter (fun c => !(sameKey "u1" 1 c))
            ∧ stockOf exDBCart 1
                = ({ id := 1, name := "p1", description := none, price := 2, stock := 3 } : ProductRow).stock
            ∧ stockOf db1 1
                = ({ id := 1, name := "p1", description := none, price := 2, stock := 3 } : ProductRow).stock
                  + ({ cartId := "u1", productId := 1, quantity := 2 } : CartItemRow).quantity
            ∧ RemoveFromCart db1 "u1" 1 = .error .errNoRows
            ∧ applyOp db1 (.release "u1" 1) = db1) :=
  ⟨by decide, by decide,
    C5_release exDBCart "u1" 1 { cartId := "u1", productId := 1, quantity := 2 }
      { id := 1, name := "p1", description := none, price := 2, stock := 3 }
      (by decide) (by decide)⟩

/-- Claim C6: a successful Reserve upserts the owner's cart line (insert
with the quantity when absent, increment the existing quantity when
present, all other lines untouched) and decrements exactly that product's
stock by the quantity. -/
theorem C6_reserve_success (db : DB) (u : String) (pid qty : Int) (p : ProductRow)
    (hq : 0 < qty) (hp : findProduct db pid = some p) (hs : qty ≤ p.stock) :
    ∃ db1, AddToCart db u pid qty = .ok db1
      ∧ (db.cartItems.find? (sameKey u pid) = none →
          db1.cartItems = db.cartItems ++ [{ cartId := u, productId := pid, quantity := qty }])
      ∧ (∀ ci, db.cartItems.find? (sameKey u pid) = some ci →
          db1.cartItems.find? (sameKey u pid) = some { ci with quantity := ci.quantity + qty }
          ∧ db1.cartItems.filter (fun c => !(sameKey u pid c))
              = db.cartItems.filter (fun c => !(sameKey u pid c)))
      ∧ stockOf db1 pid = p.stock - qty
      ∧ (∀ x, x ≠ pid → stockOf db1 x = stockOf db x) := by
  refine ⟨_, AddToCart_success db u pid qty p hq hp (by omega), ?_, ?_, ?_, ?_⟩
  · intro hnone
    rw [reserveResult_cartItems]
    have hfalse : db.cartItems.any (sameKey u pid) = false :=
      List.any_eq_false.mpr (List.find?_eq_none.mp hnone)
    unfold upsertItems
    rw [if_neg (by rw [hfalse]; simp)]
  · intro ci hci
    rw [reserveResult_cartItems]
    have hany : db.cartItems.any (sameKey u pid) = true :=
      List.any_eq_true.mpr ⟨ci, List.mem_of_find?_eq_some hci,
        List.find?_some (p := sameKey u pid) (a := ci) (l := db.cartItems) hci⟩
    unfold upsertItems
    rw [if_pos hany]
    exact ⟨find?_bump_map u pid qty db.cartItems ci hci,
      filter_not_bump_map u pid qty db.cartItems⟩
  · exact reserveResult_stock_self db u pid qty p hp
  · intro x hx
    exact reserveResult_stock_other db u pid qty x hx

/-- Witness for C6 at a concrete state (insert case). -/
theorem C6_witness :
    (0:Int) < 2
    ∧ findProduct exDB 1
        = some { id := 1, name := "p1", description := none, price := 2, stock := 5 }
    ∧ (2:Int) ≤ ({ id := 1, name := "p1", description := none, price := 2, stock := 5 } : ProductRow).stock
    ∧ (∃ db1, AddToCart exDB "u1" 1 2 = .ok db1
        ∧ (exDB.cartItems.find? (sameKey "u1" 1) = none →
            db1.cartItems = exDB.cartItems ++ [{ cartId := "u1", productId := 1, quantity := 2 }])
        ∧ (∀ ci, exDB.cartItems.find? (sameKey "u1" 1) = some ci →
            db1.cartItems.find? (sameKey "u1" 1) = some { ci with quantity := ci.quantity + 2 }
            ∧ db1.cartItems.filter (fun c => !(sameKey "u1" 1 c))
                = exDB.cartItems.filter (fun c => !(sameKey "u1" 1 c)))
        ∧ stockOf db1 1
            = ({ id := 1, name := "p1", description := none, price := 2, stock := 5 } : ProductRow).stock - 2
        ∧ (∀ x, x ≠ 1 → stockOf db1 x = stockOf exDB x)) :=
  ⟨by decide, by decide, by decide,
    C6_reserve_success exDB "u1" 1 2
      { id := 1, name := "p1", description := none, price := 2, stock := 5 }
      (by decide) (by decide) (by decide)⟩

/-- Claim C7: Checkout on a cart with no cart-item rows fails with EmptyCart
and changes no state at all. -/
theorem C7_checkout_empty (db : DB) (u : String)
    (h : db.cartItems.filter (fun ci => ci.cartId == u) = []) :
    Checkout db u = .error .emptyCart ∧ applyOp db (.checkout u) = db := by
  have he := Checkout_empty db u h
  exact ⟨he, Checkout_error_inv db u .emptyCart he⟩

/-- Witness for C7 at a concrete state with an empty cart. -/
theorem C7_witness :
    exDB.cartItems.filter (fun ci => ci.cartId == "u1") = []
    ∧ (Checkout exDB "u1" = .error .emptyCart ∧ applyOp exDB (.checkout "u1") = exDB) :=
  ⟨by decide, C7_checkout_empty exDB "u1" (by decide)⟩

/-- Claim C8: no core operation ever modifies an existing order-item row:
Reserve, Release, CreateProduct and UpdateStock leave the order-items table
unchanged, and Checkout only appends to it; in particular later catalog
changes never alter the price snapshots already recorded. -/
theorem C8_orderItems_frame (db : DB) :
    (∀ u pid qty, (applyOp db (.reserve u pid qty)).orderItems = db.orderItems)
    ∧ (∀ u pid, (applyOp db (.release u pid)).orderItems = db.orderItems)
    ∧ (∀ u, ∃ tail, (applyOp db (.checkout u)).orderItems = db.orderItems ++ tail)
    ∧ (∀ n d pr, ((CreateProduct db n d pr).1).orderItems = db.orderItems)
    ∧ (∀ pid ns, (match UpdateStock db pid ns with
        | .ok db1 => db1
        | .error _ => db).orderItems = db.orderItems) := by
  refine ⟨?_, ?_, ?_, ?_, ?_⟩
  · intro u pid qty
    cases h : AddToCart db u pid qty with
    | ok db1 =>
      rw [applyOp_reserve_ok db u pid qty db1 h]
      obtain ⟨hq, p, hp, hs, hdb1⟩ := AddToCart_ok_inv db u pid qty db1 h
      subst hdb1
      exact reserveResult_orderItems db u pid qty
    | error e =>
      rw [AddToCart_error_inv db u pid qty e h]
  · intro u pid
    cases h : RemoveFromCart db u pid with
    | ok db1 =>
      rw [applyOp_release_ok db u pid db1 h]
      cases hf : db.cartItems.find? (sameKey u pid) with
      | none =>
        rw [RemoveFromCart_notFound db u pid hf] at h
        exact absurd h (by simp)
      | some ci =>
        rw [RemoveFromCart_found db u pid ci hf] at h
        injection h with h2
        subst h2
        rfl
    | error e =>
      rw [RemoveFromCart_error_inv db u pid e h]
  · intro u
    cases h : Checkout db u with
    | ok r =>
      rw [applyOp_checkout_ok db u r h]
      obtain ⟨hi, hne, hord, hdb1⟩ := Checkout_ok_inv db u r.1 r.2.1 r.2.2 h
      rw [hdb1]
      exact ⟨_, rfl⟩
    | error e =>
      rw [Checkout_error_inv db u e h]
      exact ⟨[], (List.append_nil db.orderItems).symm⟩
  · intro n d pr
    rfl
  · intro pid ns
    by_cases h1 : ns < 0
    · rw [show UpdateStock db pid ns = .error .invalidArgument from by
        unfold UpdateStock
        rw [if_pos h1]]
    · by_cases h2 : db.products.any (fun p => p.id == pid) = true
      · rw [show UpdateStock db pid ns = .ok { db with products := db.products.map (fun p => if p.id == pid then { p with stock := ns } else p) } from by
          unfold UpdateStock
          rw [if_neg h1, if_pos h2]]
      · rw [show UpdateStock db pid ns = .error .errNoRows from by
          unfold UpdateStock
          rw [if_neg h1, if_neg h2]]

/-- Claim C9: Reserve with a non-positive quantity fails with
InvalidArgument in both the store and the service layer, without touching
the state. -/
theorem C9_reserve_invalid (db : DB) (u : String) (pid qty : Int) (h : qty ≤ 0) :
    AddToCart db u pid qty = .error .invalidArgument
    ∧ ServiceAddToCart db u pid qty = .error .invalidArgument
    ∧ applyOp db (.reserve u pid qty) = db := by
  have h1 := AddToCart_nonpos db u pid qty h
  refine ⟨h1, ?_, AddToCart_error_inv db u pid qty _ h1⟩
  unfold ServiceAddToCart
  by_cases hu : (u == "") = true
  · rw [if_pos hu]
  · rw [if_neg hu, if_pos h]

/-- Witness for C9 at quantity 0. -/
theorem C9_witness :
    (0:Int) ≤ 0
    ∧ (AddToCart exDB "u1" 1 0 = .error .invalidArgument
        ∧ ServiceAddToCart exDB "u1" 1 0 = .error .invalidArgument
        ∧ applyOp exDB (.reserve "u1" 1 0) = exDB) :=
  ⟨by decide, C9_reserve_invalid exDB "u1" 1 0 (by decide)⟩

/-- Claim C10: Reserve of a product id with no product row fails with the
store's row-not-found error (not InvalidArgument, not InsufficientStock) and
rolls the whole transaction back, the cart-record insert included. -/
theorem C10_reserve_missing_product (db : DB) (u : String) (pid qty : Int)
    (hq : 0 < qty) (hp : findProduct db pid = none) :
    AddToCart db u pid qty = .error .errNoRows
    ∧ applyOp db (.reserve u pid qty) = db
    ∧ (applyOp db (.reserve u pid qty)).carts = db.carts := by
  have h1 := AddToCart_noProduct db u pid qty hq hp
  have h2 := AddToCart_error_inv db u pid qty _ h1
  exact ⟨h1, h2, by rw [h2]⟩

/-- Witness for C10 at a product id absent from the catalog. -/
theorem C10_witness :
    (0:Int) < 1
    ∧ findProduct exDB 7 = none
    ∧ (AddToCart exDB "u1" 7 1 = .error .errNoRows
        ∧ applyOp exDB (.reserve "u1" 7 1) = exDB
        ∧ (applyOp exDB (.reserve "u1" 7 1)).carts = exDB.carts) :=
  ⟨by decide, by decide, C10_reserve_missing_product exDB "u1" 7 1 (by decide) (by decide)⟩

end Shop
